import Mathlib

/-
  Verification of the parsing-and-execution engine of a small interactive
  shell (tokenizer `getcmd`, job list `addNode`/`removeNode`/`fg`, and the
  execution engine `useCommand`/`runCmd`).

  The mutable C line buffer is modelled as a `List Char`.  The in-place
  `strsep` tokenization is modelled by first splitting the buffer into its
  raw fields (one field per delimiter occurrence, fields may be empty) and
  then folding the `getcmd` loop over the field list; the pointer-aliasing
  quirk of the `'>'` handler (the scratch `strsep(&temp)` writes a NUL into
  the shared buffer, so the following `strsep(&buffer)` re-reads the target
  token and sets the buffer to NULL, ending the loop) is reflected by the
  `'>'` branch terminating tokenization after recording the target field.
-/

namespace Shell

abbrev Str := List Char

/-- C `isspace` on the default locale: space, \t, \n, \v, \f, \r. -/
def isSpaceC (c : Char) : Bool :=
  c = ' ' || c = '\t' || c = '\n' || c = '\x0b' || c = '\x0c' || c = '\r'

/-- The `strsep` delimiter set of `getcmd`: space and tab only. -/
def isDelim (c : Char) : Bool :=
  c = ' ' || c = '\t'

def strL (s : String) : Str := s.data

/-! ## The trailing-`&` scan of `getcmd` (lines 235-248)

The C loop walks `bufferEnd` backward over whitespace; the first `'&'` met
sets `background`, is blanked to `' '`, and stops the scan; the scan also
stops at the first other non-whitespace character.  We model it on the
reversed buffer. -/

/-- Backward scan on the reversed buffer: returns the (reversed) buffer
with at most one trailing `'&'` blanked, and the background flag. -/
def trimRevGo : Str → Str × Bool
  | [] => ([], false)
  | c :: rest =>
    if c = '&' then (' ' :: rest, true)
    else if isSpaceC c then
      let p := trimRevGo rest
      (c :: p.1, p.2)
    else (c :: rest, false)

/-- Does the scan run past index 0 (C: `bufferEnd < 0` afterwards), i.e.
was the whole buffer consumed by the trailing run?  (`getcmd` then returns
0 without tokenizing.) -/
def trimEmptyRev : Str → Bool
  | [] => true
  | c :: rest => if c = '&' then rest.isEmpty else if isSpaceC c then trimEmptyRev rest else false

/-- The trailing-`&` scan in forward form. -/
def trimLine (line : Str) : Str × Bool :=
  let p := trimRevGo line.reverse
  (p.1.reverse, p.2)

/-! ## Raw fields of the buffer

`strsep` iterated over a string yields exactly its raw fields: split at
every single delimiter occurrence; fields may be empty. -/

def fieldsOf : Str → List Str
  | [] => [[]]
  | c :: cs =>
    if isDelim c then [] :: fieldsOf cs
    else
      match fieldsOf cs with
      | f :: fs => (c :: f) :: fs
      | [] => [[c]]

/-- Parse errors reported (to stderr) by `getcmd`. -/
inductive PErr where
  | gtErr
  | pipeErr
deriving DecidableEq, Repr

/-- Result of `getcmd`: the populated `args` vector (the `none` entry is
the NULL sentinel written on pipe acceptance), the returned token count
(`2147483647` = `INT32_MAX` on capacity overflow), the background flag,
`outputRedirection` and `cmdPipeIndex` (`none` = `-1`). -/
structure Cmd where
  args : List (Option Str)
  count : Nat
  background : Bool
  redirect : Option Str
  pipeIdx : Option Nat
  errs : List PErr
deriving DecidableEq, Repr

/-- The tokenizing loop of `getcmd` (lines 250-278), folded over the raw
fields of the (blanked) buffer.  `args.length` plays the role of `i`. -/
def tokLoopF : List Str → List (Option Str) → Option Str → Option Nat → List PErr → Bool → Cmd
  | [], args, redir, pi, errs, bg => ⟨args, args.length, bg, redir, pi, errs⟩
  | tok :: fs, args, redir, pi, errs, bg =>
    if tok.isEmpty then tokLoopF fs args redir pi errs bg
    else if args.length > 30 then ⟨args, 2147483647, bg, redir, pi, errs⟩
    else if tok = ['>'] then
      match fs with
      | [] => ⟨args, args.length, bg, redir, pi, errs ++ [PErr.gtErr]⟩
      | tgt :: _ => ⟨args, args.length, bg, some tgt, pi, errs⟩
    else if tok = ['|'] then
      if args.length = 0 || pi.isSome then tokLoopF fs args redir pi (errs ++ [PErr.pipeErr]) bg
      else tokLoopF fs (args ++ [none]) redir (some (args.length + 1)) errs bg
    else tokLoopF fs (args ++ [some tok]) redir pi errs bg

/-- `getcmd` (lines 227-279). -/
def getcmdM (line : Str) : Cmd :=
  let p := trimLine line
  if trimEmptyRev line.reverse then ⟨[], 0, p.2, none, none, []⟩
  else tokLoopF (fieldsOf p.1) [] none none [] p.2

/-! ## Job table (lines 15-94) -/

structure Job where
  name : Str
  pid : Nat
deriving DecidableEq, Repr

/-- `addNode`: appends at the tail of the list. -/
def addNodeM (name : Str) (pid : Nat) (table : List Job) : List Job :=
  table ++ [⟨name, pid⟩]

/-- `removeNode` (1-based walk; an index `≤ 1` removes the head when the
list is non-empty).  Returns the removed job and the remaining list, or
`none` without touching the list. -/
def removeNodeM : Nat → List Job → Option (Job × List Job)
  | _, [] => none
  | 0, j :: rest => some (j, rest)
  | 1, j :: rest => some (j, rest)
  | n + 2, j :: rest =>
    match removeNodeM (n + 1) rest with
    | none => none
    | some (k, rest') => some (k, j :: rest')

/-! ## `strtol` and the `(int)` cast used by `fg` (line 123) -/

def parseDigitsAcc : Str → Int → Int
  | [], acc => acc
  | ch :: cs, acc => if ch.isDigit then parseDigitsAcc cs (acc * 10 + ((ch.toNat : Int) - 48)) else acc

def longMax : Int := 9223372036854775807
def longMin : Int := -9223372036854775808

/-- Sign handling and digit-prefix parse of `strtol` after whitespace. -/
def strtolRaw : Str → Int
  | [] => 0
  | ch :: r =>
    if ch = '-' then - parseDigitsAcc r 0
    else if ch = '+' then parseDigitsAcc r 0
    else parseDigitsAcc (ch :: r) 0

def clampLong (raw : Int) : Int :=
  if raw > longMax then longMax else if raw < longMin then longMin else raw

/-- `strtol(s, NULL, 10)` on an LP64 platform: skip whitespace, optional
sign, decimal digit prefix (0 when there is none), clamped to `long`. -/
def strtolM (s : Str) : Int :=
  clampLong (strtolRaw (s.dropWhile (fun ch => isSpaceC ch)))

/-- Truncation of a `long` value to 32-bit `int` (two's complement). -/
def toCInt (n : Int) : Int :=
  ((n + 2147483648) % 4294967296) - 2147483648

/-! ## `fg` (lines 116-143) -/

inductive FgRes where
  | arityErr
  | notPositiveErr
  | invalidIndexErr
  | waited (pid : Nat)
deriving DecidableEq, Repr

def fgGo (idx : Int) (table : List Job) : List Job × FgRes :=
  if idx < 1 then (table, FgRes.notPositiveErr)
  else
    match removeNodeM idx.toNat table with
    | none => (table, FgRes.invalidIndexErr)
    | some (j, rest) => (rest, FgRes.waited j.pid)

def fgM (params : List Str) (table : List Job) : List Job × FgRes :=
  match params with
  | [] => fgGo 1 table
  | [p] => fgGo (toCInt (strtolM p)) table
  | _ :: _ :: _ => (table, FgRes.arityErr)

/-- The index `fg` acts on (defaulted to 1 for zero arguments). -/
def fgIdx (params : List Str) : Int :=
  match params with
  | [] => 1
  | p :: _ => toCInt (strtolM p)

/-! ## `runCmd` (lines 308-338) -/

/-- What a standard descriptor refers to at dispatch time. -/
inductive FdT where
  | terminal
  | pipeWrite
  | pipeRead
  | file (path : Str)
deriving DecidableEq, Repr

structure FdSt where
  stdout : FdT
  stdin : FdT
deriving DecidableEq, Repr

inductive Msg where
  | openFail
  | dupFail
  | execFail
  | arityErr
deriving DecidableEq, Repr

inductive Outcome where
  | exited (status : Nat)
  | execed (prog : Str)
  | killedGroup
deriving DecidableEq, Repr

structure RunRes where
  outcome : Outcome
  fd : FdSt
  msgs : List Msg
deriving DecidableEq, Repr

/-- Environment facts the child's system calls depend on. -/
structure Env where
  openOk : Bool
  dupOk : Bool
  execOk : Str → Bool

def envAllOk : Env := ⟨true, true, fun _ => true⟩
def envOpenFail : Env := ⟨false, true, fun _ => true⟩

/-- The argv a child passes to `execvp`: entries up to the first NULL. -/
def extractArgv : List (Option Str) → List Str
  | some t :: rest => t :: extractArgv rest
  | _ => []

def cdS : Str := strL "cd"
def fgS : Str := strL "fg"
def pwdS : Str := strL "pwd"
def jobsS : Str := strL "jobs"
def exitS : Str := strL "exit"
def echoS : Str := strL "echo"

/-- Names matched by `isBuiltIn` (lines 201-215). -/
def isBuiltInName (s : Str) : Bool :=
  s = cdS || s = fgS || s = pwdS || s = jobsS || s = exitS || s = echoS

/-- Error messages a child-executed built-in's own body can emit (`pwd`
and `jobs` reject arguments; `cd`/`fg` are matched as no-ops in the
child). -/
def builtinMsgs (cmd : Str) (params : List Str) : List Msg :=
  if cmd = pwdS then (if params.isEmpty then [] else [Msg.arityErr])
  else if cmd = jobsS then (if params.isEmpty then [] else [Msg.arityErr])
  else []

/-- `isBuiltIn` dispatch / `execvp` step of `runCmd` (lines 325-337).
`restore` is the saved previous stdout restored before a built-in's
`exit(0)`. -/
def dispatchM (args : List (Option Str)) (fd : FdSt) (restore : Option FdSt) (env : Env) : RunRes :=
  match extractArgv args with
  | [] => ⟨Outcome.exited 127, fd, [Msg.execFail]⟩
  | cmd :: params =>
    if isBuiltInName cmd then
      if cmd = exitS then ⟨Outcome.killedGroup, fd, []⟩
      else ⟨Outcome.exited 0, restore.getD fd, builtinMsgs cmd params⟩
    else if env.execOk cmd then ⟨Outcome.execed cmd, fd, []⟩
    else ⟨Outcome.exited 127, fd, [Msg.execFail]⟩

/-- `runCmd` (lines 308-338): redirection setup, then dispatch. -/
def runCmdM (args : List (Option Str)) (redir : Option Str) (fd0 : FdSt) (env : Env) : RunRes :=
  match redir with
  | some f =>
    if env.openOk = false then ⟨Outcome.exited 127, fd0, [Msg.openFail]⟩
    else if env.dupOk = false then ⟨Outcome.exited 127, fd0, [Msg.dupFail]⟩
    else dispatchM args ⟨FdT.file f, fd0.stdin⟩ (some fd0) env
  | none => dispatchM args fd0 none env

/-! ## `useCommand` (lines 349-390) -/

inductive PAct where
  | runCd (params : List Str)
  | runFg (params : List Str)
  | waitChild
  | addJob
deriving DecidableEq, Repr

inductive ChildSpec where
  | single (r : RunRes)
  | piped (left : RunRes) (right : RunRes)
deriving DecidableEq, Repr

structure UseRes where
  forked : Bool
  parent : Option PAct
  child : Option ChildSpec
  table : List Job
  overflowMsg : Bool
  emptyBgMsg : Bool
deriving DecidableEq, Repr

def firstTok (r : Cmd) : Str :=
  match r.args with
  | some t :: _ => t
  | _ => []

def useCommandM (command : Str) (r : Cmd) (table : List Job) (childPID : Nat) (env : Env) : UseRes :=
  if 0 < r.count then
    if r.count > 30 then ⟨false, none, none, table, true, false⟩
    else
      let parentAct :=
        if firstTok r = cdS then PAct.runCd (extractArgv (r.args.drop 1))
        else if firstTok r = fgS then PAct.runFg (extractArgv (r.args.drop 1))
        else if r.background = false then PAct.waitChild
        else PAct.addJob
      let table' :=
        match parentAct with
        | PAct.runFg ps => (fgM ps table).1
        | PAct.addJob => addNodeM command childPID table
        | _ => table
      let child :=
        match r.pipeIdx with
        | some k =>
          ChildSpec.piped
            (runCmdM r.args r.redirect ⟨FdT.pipeWrite, FdT.terminal⟩ env)
            (runCmdM (r.args.drop k) r.redirect ⟨FdT.terminal, FdT.pipeRead⟩ env)
        | none => ChildSpec.single (runCmdM r.args r.redirect ⟨FdT.terminal, FdT.terminal⟩ env)
      ⟨true, some parentAct, some child, table', false, false⟩
  else if r.background then ⟨false, none, none, table, false, true⟩
  else ⟨false, none, none, table, false, false⟩

/-- Single-space concatenation of tokens in front of a tail, matching how
a line lays its tokens out in the buffer. -/
def joinTok : List Str → Str → Str
  | [], tail => tail
  | t :: ts, tail => t ++ ' ' :: joinTok ts tail

end Shell

namespace Shell

/-! ## Helper lemmas -/

theorem tokLoopF_bg (fs : List Str) (args : List (Option Str)) (rd : Option Str)
    (pi : Option Nat) (errs : List PErr) (bg : Bool) :
    (tokLoopF fs args rd pi errs bg).background = bg := by
  induction fs generalizing args rd pi errs with
  | nil => rfl
  | cons tok fs ih =>
    simp only [tokLoopF]
    split
    · exact ih ..
    · split
      · rfl
      · split
        · split <;> rfl
        · split
          · split
            · exact ih ..
            · exact ih ..
          · exact ih ..

theorem tokLoopF_ord (tok : Str) (fs : List Str) (args : List (Option Str)) (rd : Option Str)
    (pi : Option Nat) (errs : List PErr) (bg : Bool)
    (h1 : tok ≠ []) (h2 : tok ≠ ['>']) (h3 : tok ≠ ['|']) (hle : args.length ≤ 30) :
    tokLoopF (tok :: fs) args rd pi errs bg = tokLoopF fs (args ++ [some tok]) rd pi errs bg := by
  have he : tok.isEmpty = false := by cases tok with
    | nil => exact absurd rfl h1
    | cons a l => rfl
  simp only [tokLoopF, he, Bool.false_eq_true, if_false,
    if_neg (by omega : ¬ args.length > 30), if_neg h2, if_neg h3]

theorem tokLoopF_gt (tgt : Str) (fs : List Str) (args : List (Option Str)) (rd : Option Str)
    (pi : Option Nat) (errs : List PErr) (bg : Bool) (hle : args.length ≤ 30) :
    tokLoopF (['>'] :: tgt :: fs) args rd pi errs bg = ⟨args, args.length, bg, some tgt, pi, errs⟩ := by
  simp only [tokLoopF, List.isEmpty_cons, Bool.false_eq_true, if_false,
    if_neg (by omega : ¬ args.length > 30)]
  simp

theorem tokLoopF_app (toks : List Str) (fs : List Str) (args : List (Option Str)) (rd : Option Str)
    (pi : Option Nat) (errs : List PErr) (bg : Bool)
    (h : ∀ t ∈ toks, t ≠ [] ∧ t ≠ ['>'] ∧ t ≠ ['|'])
    (hlen : args.length + toks.length ≤ 31) :
    tokLoopF (toks ++ fs) args rd pi errs bg = tokLoopF fs (args ++ toks.map some) rd pi errs bg := by
  induction toks generalizing args with
  | nil => simp
  | cons t ts ih =>
    obtain ⟨h1, h2, h3⟩ := h t (by simp)
    simp only [List.length_cons] at hlen
    rw [List.cons_append, tokLoopF_ord t (ts ++ fs) args rd pi errs bg h1 h2 h3 (by omega),
      ih (args ++ [some t]) (fun x hx => h x (by simp [hx])) (by simp; omega)]
    simp

theorem removeNodeM_none (n : Nat) (l : List Job) (h : l.length < n) : removeNodeM n l = none := by
  induction l generalizing n with
  | nil => cases n with
    | zero => rfl
    | succ m => cases m <;> rfl
  | cons j rest ih =>
    simp only [List.length_cons] at h
    obtain ⟨m, rfl⟩ : ∃ m, n = m + 2 := ⟨n - 2, by omega⟩
    simp only [removeNodeM, ih (m + 1) (by omega)]

theorem parseDigitsAcc_noDigit (r : Str) (h : ∀ ch ∈ r, ch.isDigit = false) :
    parseDigitsAcc r 0 = 0 := by
  cases r with
  | nil => rfl
  | cons ch cs => simp [parseDigitsAcc, h ch (by simp)]

theorem strtolRaw_noDigit (s1 : Str) (h : ∀ ch ∈ s1, ch.isDigit = false) : strtolRaw s1 = 0 := by
  cases s1 with
  | nil => rfl
  | cons ch r =>
    have hch : ch.isDigit = false := h ch (by simp)
    have hr : ∀ x ∈ r, x.isDigit = false := fun x hx => h x (by simp [hx])
    simp only [strtolRaw]
    by_cases hm : ch = '-'
    · rw [if_pos hm, parseDigitsAcc_noDigit r hr]
      rfl
    · by_cases hp2 : ch = '+'
      · rw [if_neg hm, if_pos hp2, parseDigitsAcc_noDigit r hr]
      · rw [if_neg hm, if_neg hp2]
        simp only [parseDigitsAcc, hch, Bool.false_eq_true, if_false]

theorem strtolM_noDigit (s : Str) (h : ∀ ch ∈ s, ch.isDigit = false) : strtolM s = 0 := by
  have hsub : ∀ ch ∈ s.dropWhile (fun ch => isSpaceC ch), ch.isDigit = false :=
    fun ch hch => h ch ((List.dropWhile_sublist _).subset hch)
  unfold strtolM
  rw [strtolRaw_noDigit _ hsub]
  decide

theorem dispatchM_execed_fd (args : List (Option Str)) (fd : FdSt) (rst : Option FdSt) (env : Env)
    (p : Str) (fd' : FdSt) (m : List Msg)
    (h : dispatchM args fd rst env = ⟨Outcome.execed p, fd', m⟩) : fd' = fd := by
  unfold dispatchM at h
  split at h
  · simp at h
  · split at h
    · split at h <;> simp at h
    · split at h
      · injection h with h1 h2 h3
        exact h2.symm
      · simp at h

end Shell

namespace Shell

theorem isSpaceC_amp : isSpaceC '&' = false := by decide

theorem trimRevGo_stop (w : Str) (c : Char) (t : Str)
    (hw : ∀ x ∈ w, isSpaceC x = true) (hc1 : isSpaceC c = false) (hc2 : c ≠ '&') :
    trimRevGo (w ++ c :: t) = (w ++ c :: t, false) := by
  induction w with
  | nil => simp [trimRevGo, hc1, hc2]
  | cons d w' ih =>
    have hd : isSpaceC d = true := hw d (by simp)
    have hdamp : d ≠ '&' := fun hh => by rw [hh, isSpaceC_amp] at hd; exact Bool.false_ne_true hd
    simp [trimRevGo, hdamp, hd, ih (fun x hx => hw x (by simp [hx]))]

theorem trimRevGo_amp (w : Str) (t : Str) (hw : ∀ x ∈ w, isSpaceC x = true) :
    trimRevGo (w ++ '&' :: t) = (w ++ ' ' :: t, true) := by
  induction w with
  | nil => simp [trimRevGo]
  | cons d w' ih =>
    have hd : isSpaceC d = true := hw d (by simp)
    have hdamp : d ≠ '&' := fun hh => by rw [hh, isSpaceC_amp] at hd; exact Bool.false_ne_true hd
    simp [trimRevGo, hdamp, hd, ih (fun x hx => hw x (by simp [hx]))]

theorem trimEmptyRev_stop (w : Str) (c : Char) (t : Str)
    (hw : ∀ x ∈ w, isSpaceC x = true) (hc1 : isSpaceC c = false) (hc2 : c ≠ '&') :
    trimEmptyRev (w ++ c :: t) = false := by
  induction w with
  | nil => simp [trimEmptyRev, hc1, hc2]
  | cons d w' ih =>
    have hd : isSpaceC d = true := hw d (by simp)
    have hdamp : d ≠ '&' := fun hh => by rw [hh, isSpaceC_amp] at hd; exact Bool.false_ne_true hd
    simp [trimEmptyRev, hdamp, hd, ih (fun x hx => hw x (by simp [hx]))]

theorem trimLine_stop (s : Str) (c : Char) (wsuf : Str)
    (hw : ∀ x ∈ wsuf, isSpaceC x = true) (hc1 : isSpaceC c = false) (hc2 : c ≠ '&') :
    trimLine (s ++ c :: wsuf) = (s ++ c :: wsuf, false) := by
  unfold trimLine
  have hr : (s ++ c :: wsuf).reverse = wsuf.reverse ++ c :: s.reverse := by
    simp [List.reverse_append]
  rw [hr, trimRevGo_stop _ _ _ (fun x hx => hw x (List.mem_reverse.mp hx)) hc1 hc2]
  simp [List.reverse_append]

theorem trimLine_amp (s : Str) (wsuf : Str) (hw : ∀ x ∈ wsuf, isSpaceC x = true) :
    trimLine (s ++ '&' :: wsuf) = (s ++ ' ' :: wsuf, true) := by
  unfold trimLine
  have hr : (s ++ '&' :: wsuf).reverse = wsuf.reverse ++ '&' :: s.reverse := by
    simp [List.reverse_append]
  rw [hr, trimRevGo_amp _ _ (fun x hx => hw x (List.mem_reverse.mp hx))]
  simp [List.reverse_append]

theorem trimEmptyRev_stop_rev (s : Str) (c : Char) (wsuf : Str)
    (hw : ∀ x ∈ wsuf, isSpaceC x = true) (hc1 : isSpaceC c = false) (hc2 : c ≠ '&') :
    trimEmptyRev (s ++ c :: wsuf).reverse = false := by
  have hr : (s ++ c :: wsuf).reverse = wsuf.reverse ++ c :: s.reverse := by
    simp [List.reverse_append]
  rw [hr]
  exact trimEmptyRev_stop _ _ _ (fun x hx => hw x (List.mem_reverse.mp hx)) hc1 hc2

theorem getcmdM_nonempty (line : Str) (h : trimEmptyRev line.reverse = false) :
    getcmdM line = tokLoopF (fieldsOf (trimLine line).1) [] none none [] (trimLine line).2 := by
  unfold getcmdM
  rw [h]
  simp

theorem fieldsOf_cons_tok (t : Str) (tail : Str) (h : ∀ x ∈ t, isDelim x = false) :
    fieldsOf (t ++ ' ' :: tail) = t :: fieldsOf tail := by
  induction t with
  | nil => simp [fieldsOf, isDelim]
  | cons d t' ih =>
    have hd : isDelim d = false := h d (by simp)
    have hne := ih (fun x hx => h x (by simp [hx]))
    simp [fieldsOf, hd, hne]

theorem joinTok_append (toks : List Str) (x y : Str) :
    joinTok toks (x ++ y) = joinTok toks x ++ y := by
  induction toks with
  | nil => rfl
  | cons t ts ih => simp [joinTok, ih]

theorem fieldsOf_joinTok (toks : List Str) (tail : Str)
    (h : ∀ t ∈ toks, ∀ x ∈ t, isDelim x = false) :
    fieldsOf (joinTok toks tail) = toks ++ fieldsOf tail := by
  induction toks with
  | nil => rfl
  | cons t ts ih =>
    rw [joinTok, fieldsOf_cons_tok t _ (h t (by simp)),
      ih (fun u hu x hx => h u (by simp [hu]) x hx)]
    rfl

end Shell

namespace Shell

/-- Claim C3 (confirmed): for every input line that parses to 31 or more
tokens (a `getcmd` result above the capacity `ARGS_SIZE = 30`, hence
distinct from the empty-command result 0), `useCommand` reports the
overflow and neither forks nor launches any process and leaves the job
table unchanged. -/
theorem c3_overflow_rejected_before_fork (line command : Str) (table : List Job)
    (pid : Nat) (env : Env) (h : 30 < (getcmdM line).count) :
    (getcmdM line).count ≠ 0 ∧
    useCommandM command (getcmdM line) table pid env = ⟨false, none, none, table, true, false⟩ := by
  refine ⟨by omega, ?_⟩
  unfold useCommandM
  rw [if_pos (by omega : 0 < (getcmdM line).count), if_pos (by omega : (getcmdM line).count > 30)]

/-- A line of exactly 31 whitespace-separated tokens: `getcmd` returns 31
and the engine rejects it before any fork. -/
theorem c3_witness :
    30 < (getcmdM (strL "t t t t t t t t t t t t t t t t t t t t t t t t t t t t t t t")).count ∧
    ((getcmdM (strL "t t t t t t t t t t t t t t t t t t t t t t t t t t t t t t t")).count ≠ 0 ∧
      useCommandM (strL "x") (getcmdM (strL "t t t t t t t t t t t t t t t t t t t t t t t t t t t t t t t")) [] 3 envAllOk =
        ⟨false, none, none, [], true, false⟩) :=
  ⟨by decide,
    c3_overflow_rejected_before_fork
      (strL "t t t t t t t t t t t t t t t t t t t t t t t t t t t t t t t")
      (strL "x") [] 3 envAllOk (by decide)⟩

/-- Claim C5 (confirmed): for every non-empty, non-overflowing parsed
command whose first token is neither `cd` nor `fg` and whose background
flag is true, the shell forks, does not wait, and appends exactly one Job
{command line text, child pid} at the tail of the job table. -/
theorem c5_background_adds_job_no_wait (command : Str) (r : Cmd) (table : List Job)
    (pid : Nat) (env : Env) (h1 : 0 < r.count) (h2 : r.count ≤ 30)
    (h3 : firstTok r ≠ cdS) (h4 : firstTok r ≠ fgS) (h5 : r.background = true) :
    (useCommandM command r table pid env).forked = true ∧
    (useCommandM command r table pid env).parent = some PAct.addJob ∧
    (useCommandM command r table pid env).table = table ++ [⟨command, pid⟩] := by
  unfold useCommandM
  rw [if_pos h1, if_neg (by omega : ¬ r.count > 30)]
  simp [h3, h4, h5, addNodeM]

/-- The line `"sleep 1 &"` with an empty job table: the engine backgrounds
the fork and the job table gains exactly the one entry. -/
theorem c5_witness :
    (useCommandM (strL "sleep 1 &") (getcmdM (strL "sleep 1 &")) [] 42 envAllOk).forked = true ∧
    (useCommandM (strL "sleep 1 &") (getcmdM (strL "sleep 1 &")) [] 42 envAllOk).parent = some PAct.addJob ∧
    (useCommandM (strL "sleep 1 &") (getcmdM (strL "sleep 1 &")) [] 42 envAllOk).table =
      [] ++ [⟨strL "sleep 1 &", 42⟩] :=
  c5_background_adds_job_no_wait (strL "sleep 1 &") (getcmdM (strL "sleep 1 &")) [] 42 envAllOk
    (by decide) (by decide) (by decide) (by decide) (by decide)

/-- Claim C8 (confirmed): an `fg` invocation with at most one argument
whose (defaulted) index exceeds the job table length reports the
invalid-index error, performs no wait, and leaves the table unchanged. -/
theorem c8_fg_invalid_index (params : List Str) (table : List Job)
    (h1 : params.length ≤ 1) (h2 : (table.length : Int) < fgIdx params) :
    fgM params table = (table, FgRes.invalidIndexErr) := by
  match params with
  | [] =>
    have hidx : fgIdx [] = 1 := rfl
    rw [hidx] at h2
    show fgGo 1 table = (table, FgRes.invalidIndexErr)
    unfold fgGo
    rw [if_neg (by norm_num : ¬ (1 : Int) < 1),
      removeNodeM_none (1 : Int).toNat table (by omega)]
  | [p] =>
    have hidx : fgIdx [p] = toCInt (strtolM p) := rfl
    rw [hidx] at h2
    show fgGo (toCInt (strtolM p)) table = (table, FgRes.invalidIndexErr)
    unfold fgGo
    rw [if_neg (by omega : ¬ toCInt (strtolM p) < 1),
      removeNodeM_none (toCInt (strtolM p)).toNat table (by omega)]
  | _ :: _ :: _ => simp at h1

/-- `fg` with no argument on an empty job table: invalid-index error, no
wait, table untouched. -/
theorem c8_witness : fgM [] [] = ([], FgRes.invalidIndexErr) :=
  c8_fg_invalid_index [] [] (by decide) (by decide)

/-- Claim C10 (confirmed): `fg` with exactly one argument containing no
decimal digit (e.g. a non-numeric string) converts it to a value below 1
and rejects it with the positive-index error: no job is removed and no
wait is performed. -/
theorem c10_fg_nonnumeric_rejected (arg : Str) (table : List Job)
    (h : ∀ ch ∈ arg, ch.isDigit = false) :
    toCInt (strtolM arg) < 1 ∧ fgM [arg] table = (table, FgRes.notPositiveErr) := by
  have h0 : strtolM arg = 0 := strtolM_noDigit arg h
  have h1 : toCInt (strtolM arg) = 0 := by rw [h0]; decide
  refine ⟨by omega, ?_⟩
  show fgGo (toCInt (strtolM arg)) table = (table, FgRes.notPositiveErr)
  unfold fgGo
  rw [h1, if_pos (by norm_num : (0 : Int) < 1)]

/-- `fg abc` with a one-entry job table: rejected, table untouched. -/
theorem c10_witness :
    toCInt (strtolM (strL "abc")) < 1 ∧
    fgM [strL "abc"] [⟨strL "j", 5⟩] = ([⟨strL "j", 5⟩], FgRes.notPositiveErr) :=
  c10_fg_nonnumeric_rejected (strL "abc") [⟨strL "j", 5⟩] (by decide)

end Shell

namespace Shell

theorem firstTok_shape (r : Cmd) (t : Str) (ht : t ≠ []) (h : firstTok r = t) :
    ∃ tail, r.args = some t :: tail := by
  cases hargs : r.args with
  | nil =>
    have h0 : firstTok r = [] := by unfold firstTok; rw [hargs]
    exact absurd (h0.symm.trans h).symm ht
  | cons o tail =>
    cases o with
    | none =>
      have h0 : firstTok r = [] := by unfold firstTok; rw [hargs]
      exact absurd (h0.symm.trans h).symm ht
    | some u =>
      have h0 : firstTok r = u := by unfold firstTok; rw [hargs]
      exact ⟨tail, by rw [(h0.symm.trans h : u = t)]⟩

/-- Claim C4 counterexample: on the parsed command `"cd x"` the engine DOES
fork — `fork()` runs unconditionally before the `cd` intercept check, so a
child process is created, contrary to the claim that no child process is
created for a `cd` command. -/
theorem c4_counterexample :
    (useCommandM (strL "cd x") (getcmdM (strL "cd x")) [] 9 envAllOk).forked = true ∧
    (useCommandM (strL "cd x") (getcmdM (strL "cd x")) [] 9 envAllOk).child =
      some (ChildSpec.single ⟨Outcome.exited 0, ⟨FdT.terminal, FdT.terminal⟩, []⟩) := by
  decide

/-- Claim C4 (amended): for every parsed command whose first token is
`cd`, the working-directory change executes directly in the shell process
(the parent branch runs `cd` and does not wait or touch the job table),
but a child process is still forked; the child no-op-matches `cd` as a
built-in and exits with status 0. -/
theorem c4_cd_runs_in_parent_but_forks (command : Str) (r : Cmd) (table : List Job)
    (pid : Nat) (env : Env) (h1 : 0 < r.count) (h2 : r.count ≤ 30)
    (h3 : firstTok r = cdS) (h4 : r.pipeIdx = none) (h5 : r.redirect = none) :
    (useCommandM command r table pid env).forked = true ∧
    (useCommandM command r table pid env).parent =
      some (PAct.runCd (extractArgv (r.args.drop 1))) ∧
    (useCommandM command r table pid env).table = table ∧
    (useCommandM command r table pid env).child =
      some (ChildSpec.single ⟨Outcome.exited 0, ⟨FdT.terminal, FdT.terminal⟩, []⟩) := by
  obtain ⟨tail, hargs⟩ := firstTok_shape r cdS (by decide) h3
  have hrun : runCmdM r.args none ⟨FdT.terminal, FdT.terminal⟩ env =
      ⟨Outcome.exited 0, ⟨FdT.terminal, FdT.terminal⟩, []⟩ := by
    rw [hargs]
    rfl
  unfold useCommandM
  rw [if_pos h1, if_neg (by omega : ¬ r.count > 30)]
  simp [h3, h4, h5, hrun]

/-- Instantiation of the amended C4 on the concrete line `"cd x"`. -/
theorem c4_witness :
    (useCommandM (strL "cd x") (getcmdM (strL "cd x")) [] 9 envAllOk).forked = true ∧
    (useCommandM (strL "cd x") (getcmdM (strL "cd x")) [] 9 envAllOk).parent =
      some (PAct.runCd (extractArgv ((getcmdM (strL "cd x")).args.drop 1))) ∧
    (useCommandM (strL "cd x") (getcmdM (strL "cd x")) [] 9 envAllOk).table = [] ∧
    (useCommandM (strL "cd x") (getcmdM (strL "cd x")) [] 9 envAllOk).child =
      some (ChildSpec.single ⟨Outcome.exited 0, ⟨FdT.terminal, FdT.terminal⟩, []⟩) :=
  c4_cd_runs_in_parent_but_forks (strL "cd x") (getcmdM (strL "cd x")) [] 9 envAllOk
    (by decide) (by decide) (by decide) (by decide) (by decide)

/-- Claim C1 counterexample: on `"a | b > f"` the left (pipe-writing)
stage's stdout at exec time is the file `f`, not the pipe's write end —
`runCmd` applies the file redirection in BOTH stages, so the redirection
is not confined to the right-hand command. -/
theorem c1_counterexample :
    (useCommandM (strL "a | b > f") (getcmdM (strL "a | b > f")) [] 7 envAllOk).child =
      some (ChildSpec.piped
        ⟨Outcome.execed (strL "a"), ⟨FdT.file (strL "f"), FdT.terminal⟩, []⟩
        ⟨Outcome.execed (strL "b"), ⟨FdT.file (strL "f"), FdT.pipeRead⟩, []⟩) ∧
    FdT.file (strL "f") ≠ FdT.pipeWrite := by
  decide

/-- Claim C1 (amended): when a parsed line has both a pipe split and a
redirect target and the redirection setup succeeds, the engine passes the
redirect to BOTH stages' `runCmd`: each stage's standard output at exec
time is the redirect file — in particular the left stage's pipe write-end
wiring is overridden by the file redirection. -/
theorem c1_redirect_applies_to_both_stages (command : Str) (r : Cmd) (table : List Job)
    (pid : Nat) (env : Env) (k : Nat) (f : Str)
    (h1 : 0 < r.count) (h2 : r.count ≤ 30) (h3 : r.pipeIdx = some k)
    (h4 : r.redirect = some f) (h5 : env.openOk = true) (h6 : env.dupOk = true) :
    (useCommandM command r table pid env).child =
      some (ChildSpec.piped
        (runCmdM r.args (some f) ⟨FdT.pipeWrite, FdT.terminal⟩ env)
        (runCmdM (r.args.drop k) (some f) ⟨FdT.terminal, FdT.pipeRead⟩ env)) ∧
    (∀ p fdL m, runCmdM r.args (some f) ⟨FdT.pipeWrite, FdT.terminal⟩ env =
      ⟨Outcome.execed p, fdL, m⟩ → fdL.stdout = FdT.file f) ∧
    (∀ p fdR m, runCmdM (r.args.drop k) (some f) ⟨FdT.terminal, FdT.pipeRead⟩ env =
      ⟨Outcome.execed p, fdR, m⟩ → fdR.stdout = FdT.file f) := by
  refine ⟨?_, ?_, ?_⟩
  · unfold useCommandM
    rw [if_pos h1, if_neg (by omega : ¬ r.count > 30)]
    simp [h3, h4]
  · intro p fdL m heq
    unfold runCmdM at heq
    rw [h5] at heq
    rw [h6] at heq
    simp only [Bool.true_eq_false, if_false] at heq
    rw [dispatchM_execed_fd _ _ _ _ _ _ _ heq]
  · intro p fdR m heq
    unfold runCmdM at heq
    rw [h5] at heq
    rw [h6] at heq
    simp only [Bool.true_eq_false, if_false] at heq
    rw [dispatchM_execed_fd _ _ _ _ _ _ _ heq]

/-- Instantiation of the amended C1 on the concrete line `"a | b > f"`. -/
theorem c1_witness :
    (useCommandM (strL "a | b > f") (getcmdM (strL "a | b > f")) [] 7 envAllOk).child =
      some (ChildSpec.piped
        (runCmdM (getcmdM (strL "a | b > f")).args (some (strL "f"))
          ⟨FdT.pipeWrite, FdT.terminal⟩ envAllOk)
        (runCmdM ((getcmdM (strL "a | b > f")).args.drop 2) (some (strL "f"))
          ⟨FdT.terminal, FdT.pipeRead⟩ envAllOk)) ∧
    (∀ p fdL m, runCmdM (getcmdM (strL "a | b > f")).args (some (strL "f"))
      ⟨FdT.pipeWrite, FdT.terminal⟩ envAllOk =
      ⟨Outcome.execed p, fdL, m⟩ → fdL.stdout = FdT.file (strL "f")) ∧
    (∀ p fdR m, runCmdM ((getcmdM (strL "a | b > f")).args.drop 2) (some (strL "f"))
      ⟨FdT.terminal, FdT.pipeRead⟩ envAllOk =
      ⟨Outcome.execed p, fdR, m⟩ → fdR.stdout = FdT.file (strL "f")) :=
  c1_redirect_applies_to_both_stages (strL "a | b > f") (getcmdM (strL "a | b > f"))
    [] 7 envAllOk 2 (strL "f") (by decide) (by decide) (by decide) (by decide) rfl rfl

end Shell

namespace Shell

/-- Claim C6 counterexample: a child running the built-in `pwd` with a
redirect whose `open` fails terminates with status 127, not 0 — the
redirect-file-open failure path precedes built-in dispatch and is not
confined to external dispatch. -/
theorem c6_counterexample :
    isBuiltInName pwdS = true ∧
    (runCmdM [some pwdS] (some (strL "f")) ⟨FdT.terminal, FdT.terminal⟩ envOpenFail).outcome =
      Outcome.exited 127 ∧
    Outcome.exited 127 ≠ Outcome.exited 0 := by
  decide

/-- Claim C6 (amended): a child whose first token is one of the built-ins
run (or no-op-matched) in the child — `cd`, `fg`, `pwd`, `jobs`, `echo` —
terminates with status 0 whenever the redirection setup succeeds (or no
redirect is present), regardless of any internal failure of the built-in's
body; a redirect-open failure or descriptor-duplication failure terminates
the child with status 127 on the built-in path just as on the external
path, and an exec failure on the external path also yields 127. -/
theorem c6_builtin_child_exit_status :
    (∀ (args : List (Option Str)) (redir : Option Str) (fd0 : FdSt) (env : Env)
        (cmd : Str) (params : List Str),
      extractArgv args = cmd :: params →
      (cmd = cdS ∨ cmd = fgS ∨ cmd = pwdS ∨ cmd = jobsS ∨ cmd = echoS) →
      (redir = none ∨ (env.openOk = true ∧ env.dupOk = true)) →
      (runCmdM args redir fd0 env).outcome = Outcome.exited 0) ∧
    (∀ (args : List (Option Str)) (f : Str) (fd0 : FdSt) (env : Env),
      env.openOk = false →
      (runCmdM args (some f) fd0 env).outcome = Outcome.exited 127) ∧
    (∀ (args : List (Option Str)) (f : Str) (fd0 : FdSt) (env : Env),
      env.openOk = true → env.dupOk = false →
      (runCmdM args (some f) fd0 env).outcome = Outcome.exited 127) ∧
    (∀ (args : List (Option Str)) (fd0 : FdSt) (env : Env) (cmd : Str) (params : List Str),
      extractArgv args = cmd :: params → isBuiltInName cmd = false → env.execOk cmd = false →
      (runCmdM args none fd0 env).outcome = Outcome.exited 127) := by
  refine ⟨?_, ?_, ?_, ?_⟩
  · intro args redir fd0 env cmd params hextract hcmd hsetup
    have hb : isBuiltInName cmd = true := by
      rcases hcmd with rfl | rfl | rfl | rfl | rfl <;> decide
    have hex : cmd ≠ exitS := by
      rcases hcmd with rfl | rfl | rfl | rfl | rfl <;> decide
    have hdisp : ∀ (fd : FdSt) (rst : Option FdSt),
        (dispatchM args fd rst env).outcome = Outcome.exited 0 := by
      intro fd rst
      unfold dispatchM
      rw [hextract]
      simp [hb, hex]
    rcases hsetup with rfl | ⟨ho, hd⟩
    · exact hdisp fd0 none
    · unfold runCmdM
      cases redir with
      | none => exact hdisp fd0 none
      | some f =>
        rw [ho, hd]
        simp only [Bool.true_eq_false, if_false]
        exact hdisp _ _
  · intro args f fd0 env ho
    unfold runCmdM
    rw [ho]
    rfl
  · intro args f fd0 env ho hd
    unfold runCmdM
    rw [ho, hd]
    rfl
  · intro args fd0 env cmd params hextract hnb hexec
    unfold runCmdM dispatchM
    rw [hextract]
    simp [hnb, hexec]

/-- Instantiations of the amended C6: `jobs` with an argument (its body
reports an arity failure) still exits 0 under a working redirect, and the
built-in `pwd` exits 127 when the redirect open fails. -/
theorem c6_witness :
    (runCmdM [some jobsS, some (strL "x")] (some (strL "f")) ⟨FdT.terminal, FdT.terminal⟩
      envAllOk).outcome = Outcome.exited 0 ∧
    (runCmdM [some jobsS, some (strL "x")] (some (strL "f")) ⟨FdT.terminal, FdT.terminal⟩
      envAllOk).msgs = [Msg.arityErr] ∧
    (runCmdM [some pwdS] (some (strL "f")) ⟨FdT.terminal, FdT.terminal⟩
      envOpenFail).outcome = Outcome.exited 127 :=
  ⟨c6_builtin_child_exit_status.1 [some jobsS, some (strL "x")] (some (strL "f"))
      ⟨FdT.terminal, FdT.terminal⟩ envAllOk jobsS [strL "x"] (by decide)
      (by decide) (Or.inr ⟨rfl, rfl⟩),
    by decide,
    c6_builtin_child_exit_status.2.1 [some pwdS] (strL "f")
      ⟨FdT.terminal, FdT.terminal⟩ envOpenFail rfl⟩

end Shell

namespace Shell

/-- Claim C2 counterexample: on `"a > b c d"` the tokens `c` and `d` after
the redirect target are BOTH discarded (argv is just `["a"]`), contrary to
the claim that exactly one further token is discarded and the rest
appended. -/
theorem c2_counterexample :
    getcmdM (strL "a > b c d") =
      ⟨[some (strL "a")], 1, false, some (strL "b"), none, []⟩ ∧
    ¬ some (strL "d") ∈ (getcmdM (strL "a > b c d")).args := by
  decide

/-- Claim C2 (amended): a token equal to `>` consumes exactly the next raw
field as redirectTarget and then terminates tokenization: EVERY token
after the redirect target is discarded, none is appended to argv.  Stated
for a line laid out as single-space-joined ordinary tokens, then `>`, the
target, and an arbitrary remainder (whose last character closes the
trailing-`&` scan). -/
theorem c2_redirect_discards_rest (toks : List Str) (tgt r0 : Str) (c : Char)
    (htoks : ∀ t ∈ toks, t ≠ [] ∧ t ≠ ['>'] ∧ t ≠ ['|'] ∧ ∀ x ∈ t, isDelim x = false)
    (hlen : toks.length ≤ 30)
    (htgt : ∀ x ∈ tgt, isDelim x = false)
    (hc1 : isSpaceC c = false) (hc2 : c ≠ '&') :
    getcmdM (joinTok toks ('>' :: ' ' :: (tgt ++ ' ' :: (r0 ++ [c])))) =
      ⟨toks.map Option.some, toks.length, false, some tgt, none, []⟩ := by
  have hsnoc : joinTok toks ('>' :: ' ' :: (tgt ++ ' ' :: (r0 ++ [c]))) =
      joinTok toks ('>' :: ' ' :: (tgt ++ ' ' :: r0)) ++ [c] := by
    have h0 : ('>' :: ' ' :: (tgt ++ ' ' :: (r0 ++ [c]))) =
        ('>' :: ' ' :: (tgt ++ ' ' :: r0)) ++ [c] := by simp
    rw [h0, joinTok_append]
  have htrim : trimLine (joinTok toks ('>' :: ' ' :: (tgt ++ ' ' :: (r0 ++ [c])))) =
      (joinTok toks ('>' :: ' ' :: (tgt ++ ' ' :: (r0 ++ [c]))), false) := by
    rw [hsnoc]
    have h1 := trimLine_stop (joinTok toks ('>' :: ' ' :: (tgt ++ ' ' :: r0))) c []
      (by simp) hc1 hc2
    simpa using h1
  have hempty : trimEmptyRev (joinTok toks ('>' :: ' ' :: (tgt ++ ' ' :: (r0 ++ [c])))).reverse = false := by
    rw [hsnoc]
    have h1 := trimEmptyRev_stop_rev (joinTok toks ('>' :: ' ' :: (tgt ++ ' ' :: r0))) c []
      (by simp) hc1 hc2
    simpa using h1
  rw [getcmdM_nonempty _ hempty]
  simp only [htrim]
  have hfields : fieldsOf (joinTok toks ('>' :: ' ' :: (tgt ++ ' ' :: (r0 ++ [c])))) =
      toks ++ (['>'] :: tgt :: fieldsOf (r0 ++ [c])) := by
    rw [fieldsOf_joinTok toks _ (fun t ht x hx => (htoks t ht).2.2.2 x hx)]
    congr 1
    have h1 : ('>' :: ' ' :: (tgt ++ ' ' :: (r0 ++ [c]))) =
        (['>'] : Str) ++ ' ' :: (tgt ++ ' ' :: (r0 ++ [c])) := rfl
    rw [h1, fieldsOf_cons_tok ['>'] _ (by decide), fieldsOf_cons_tok tgt _ htgt]
  rw [hfields,
    tokLoopF_app toks _ [] none none [] false
      (fun t ht => ⟨(htoks t ht).1, (htoks t ht).2.1, (htoks t ht).2.2.1⟩)
      (by simp; omega),
    List.nil_append,
    tokLoopF_gt tgt (fieldsOf (r0 ++ [c])) (toks.map some) none none [] false
      (by simp [hlen])]
  simp

/-- Instantiation of the amended C2 on the concrete line `"a > b c d"`. -/
theorem c2_witness :
    getcmdM (joinTok [strL "a"] ('>' :: ' ' :: (strL "b" ++ ' ' :: (strL "c " ++ ['d'])))) =
      ⟨[strL "a"].map Option.some, [strL "a"].length, false, some (strL "b"), none, []⟩ :=
  c2_redirect_discards_rest [strL "a"] (strL "b") (strL "c ") 'd'
    (by decide) (by decide) (by decide) (by decide) (by decide)

/-- Claim C7 (confirmed): a `|` token is accepted iff at least one argv
entry precedes it and no earlier `|` was accepted (the loop step below);
on acceptance argv gains the NULL sentinel and pipeSplit records the start
of the second command.  Concretely, `"a | b"` yields the argv vectors
`["a"]` and `["b"]` around the sentinel, while `"| a"` and `"a | b | c"`
each report a parse error and parsing continues. -/
theorem c7_pipe_acceptance :
    (∀ (fs : List Str) (args : List (Option Str)) (rd : Option Str) (pi : Option Nat)
        (errs : List PErr) (bg : Bool), args.length ≤ 30 →
      tokLoopF (['|'] :: fs) args rd pi errs bg =
        if args.length = 0 || pi.isSome then tokLoopF fs args rd pi (errs ++ [PErr.pipeErr]) bg
        else tokLoopF fs (args ++ [none]) rd (some (args.length + 1)) errs bg) ∧
    getcmdM (strL "a | b") =
      ⟨[some (strL "a"), none, some (strL "b")], 3, false, none, some 2, []⟩ ∧
    extractArgv (getcmdM (strL "a | b")).args = [strL "a"] ∧
    extractArgv ((getcmdM (strL "a | b")).args.drop 2) = [strL "b"] ∧
    getcmdM (strL "| a") =
      ⟨[some (strL "a")], 1, false, none, none, [PErr.pipeErr]⟩ ∧
    getcmdM (strL "a | b | c") =
      ⟨[some (strL "a"), none, some (strL "b"), some (strL "c")], 4, false, none, some 2,
        [PErr.pipeErr]⟩ := by
  refine ⟨?_, by decide, by decide, by decide, by decide, by decide⟩
  intro fs args rd pi errs bg hle
  simp only [tokLoopF, List.isEmpty_cons, Bool.false_eq_true, if_false,
    if_neg (by omega : ¬ args.length > 30), if_neg (by decide : ¬ (['|'] : Str) = ['>'])]
  simp

/-- Instantiation of the C7 loop step: a `|` with one preceding argv entry
and no prior pipe is accepted. -/
theorem c7_witness :
    tokLoopF [['|']] [some (strL "a")] none none [] false =
      (if ([some (strL "a")] : List (Option Str)).length = 0 || (none : Option Nat).isSome
       then tokLoopF [] [some (strL "a")] none none ([] ++ [PErr.pipeErr]) false
       else tokLoopF [] ([some (strL "a")] ++ [none]) none
         (some (([some (strL "a")] : List (Option Str)).length + 1)) [] false) :=
  c7_pipe_acceptance.1 [] [some (strL "a")] none none [] false (by decide)

/-- Claim C9 counterexample: in `"a > & b"` (whose last non-whitespace
character is `b`, not `&`) the inline `&` is NOT returned as an ordinary
argv token — it is consumed as the redirect target — contradicting the
claim that any non-trailing `&` ends up in argv. -/
theorem c9_counterexample :
    (getcmdM (strL "a > & b")).background = false ∧
    (getcmdM (strL "a > & b")).redirect = some (strL "&") ∧
    ¬ some (strL "&") ∈ (getcmdM (strL "a > & b")).args := by
  decide

/-- Claim C9 (amended): for every input line whose last non-whitespace
character is not `&`, tokenize sets background=false and performs no
blanking (the buffer is unchanged); the tokenizer loop itself gives an `&`
token no special treatment — it appends it as an ordinary argv token —
though the `>` handling may instead consume an `&` as redirect target or
discard it; only a single `&` in the trailing whitespace run sets
background=true and is blanked to a space. -/
theorem c9_background_and_amp_tokens :
    (∀ (s : Str) (c : Char) (wsuf : Str), isSpaceC c = false → c ≠ '&' →
      (∀ x ∈ wsuf, isSpaceC x = true) →
      trimLine (s ++ c :: wsuf) = (s ++ c :: wsuf, false) ∧
      (getcmdM (s ++ c :: wsuf)).background = false) ∧
    (∀ (fs : List Str) (args : List (Option Str)) (rd : Option Str) (pi : Option Nat)
        (errs : List PErr) (bg : Bool), args.length ≤ 30 →
      tokLoopF (['&'] :: fs) args rd pi errs bg = tokLoopF fs (args ++ [some ['&']]) rd pi errs bg) ∧
    (∀ (s : Str) (wsuf : Str), (∀ x ∈ wsuf, isSpaceC x = true) →
      trimLine (s ++ '&' :: wsuf) = (s ++ ' ' :: wsuf, true)) := by
  refine ⟨?_, ?_, ?_⟩
  · intro s c wsuf hc1 hc2 hw
    have htrim := trimLine_stop s c wsuf hw hc1 hc2
    refine ⟨htrim, ?_⟩
    rw [getcmdM_nonempty _ (trimEmptyRev_stop_rev s c wsuf hw hc1 hc2), tokLoopF_bg, htrim]
  · intro fs args rd pi errs bg hle
    exact tokLoopF_ord ['&'] fs args rd pi errs bg (by decide) (by decide) (by decide) hle
  · intro s wsuf hw
    exact trimLine_amp s wsuf hw

/-- Instantiations of the amended C9: `"a b"` parses with background=false
and an unchanged buffer; an inline `&` token is appended ordinarily; a
trailing `&` is blanked and backgrounds the line. -/
theorem c9_witness :
    (trimLine (strL "a " ++ 'b' :: []) = (strL "a " ++ 'b' :: [], false) ∧
      (getcmdM (strL "a " ++ 'b' :: [])).background = false) ∧
    tokLoopF [['&']] [some (strL "a")] none none [] false =
      tokLoopF [] ([some (strL "a")] ++ [some ['&']]) none none [] false ∧
    trimLine (strL "a" ++ '&' :: [' ']) = (strL "a" ++ ' ' :: [' '], true) :=
  ⟨c9_background_and_amp_tokens.1 (strL "a ") 'b' [] (by decide) (by decide) (by decide),
    c9_background_and_amp_tokens.2.1 [] [some (strL "a")] none none [] false (by decide),
    c9_background_and_amp_tokens.2.2 (strL "a") [' '] (by decide)⟩

end Shell
